import Mathlib

/-!
Shallow embedding of the core of the Dome Go SDK (`sdk-dome-go`) together
with proofs settling the specification claims about it.

Conventions used throughout:
* Go maps are embedded as association lists (iteration order fixed but
  irrelevant to the claims).
* Machine durations and timestamps are embedded as integers (nanoseconds
  in `backoff`, seconds in the token caches). In `backoff` the `float64`
  products are computed as exact rationals (they are bit-exact at the
  inputs of interest), while the two int64 boundaries the source crosses
  are modelled faithfully: the `time.Duration(...)` conversion truncates
  toward zero and yields MinInt64 on out-of-int64-range values (gc/amd64
  `cvttsd2si` semantics), and `interval += jitter` is two's-complement
  int64 addition. The `rand.Float64()` outcome is passed as an explicit
  parameter `r ∈ [0, 1)`.
* Opaque external dependencies (base64 decoding, JSON parsing, the Cedar
  policy compiler, the control-plane RPC backend) are passed as function
  parameters, mirroring how the source treats them as collaborators.
* Stateful methods become explicit state-passing functions; fallible Go
  code returns `Except`.
-/

namespace Dome

/-! ### Backoff utility (`agent.go`, `backoff`)

Durations are int64 nanoseconds (`time.Duration`). The source computes
`multiplier = math.Pow(2, failures)`, `interval = time.Duration(float64(base)
* multiplier)`, caps at `maxInterval`, adds `jitter =
time.Duration(float64(interval) * 0.25 * (rand.Float64()*2 - 1))` with
`interval += jitter`, and clamps below at `baseInterval`. The float64
products are exact rationals here; the conversions to `time.Duration` and
the `+=` cross int64 boundaries and are modelled with gc/amd64 semantics:
an out-of-range float-to-int64 conversion yields MinInt64 (`cvttsd2si`),
and int64 addition wraps in two's complement. -/

/-- Smallest int64 value, the gc/amd64 result of an out-of-range
float64-to-int64 conversion. -/
def int64Min : ℤ := -(2 ^ 63)

/-- Largest int64 value. -/
def int64Max : ℤ := 2 ^ 63 - 1

/-- Truncation toward zero, as float64-to-integer conversion truncates. -/
def truncTowardZero (q : ℚ) : ℤ := if 0 ≤ q then ⌊q⌋ else ⌈q⌉

/-- Semantics of `time.Duration(f)` for a float64 value `f` on gc/amd64:
truncate toward zero; a value outside the int64 range yields MinInt64. -/
def toDuration (q : ℚ) : ℤ :=
  if truncTowardZero q < int64Min ∨ int64Max < truncTowardZero q then int64Min
  else truncTowardZero q

/-- Two's-complement int64 addition, as used by `interval += jitter`. -/
def addInt64 (a b : ℤ) : ℤ := (a + b + 2 ^ 63) % 2 ^ 64 - 2 ^ 63

/-- Exponential interval `time.Duration(float64(base) * 2^failures)` before
capping (this conversion is where large failure counts overflow). -/
def rawInterval (baseInterval : ℤ) (failures : ℤ) : ℤ :=
  toDuration ((baseInterval : ℚ) * 2 ^ failures.toNat)

/-- Cap the exponential interval at `maxInterval`. -/
def cappedInterval (baseInterval maxInterval : ℤ) (failures : ℤ) : ℤ :=
  if rawInterval baseInterval failures > maxInterval then maxInterval
  else rawInterval baseInterval failures

/-- Jitter term `time.Duration(float64(interval) * 0.25 * (r*2 - 1))`,
where `r` stands for the `rand.Float64()` draw. -/
def jitterTerm (interval : ℤ) (r : ℚ) : ℤ :=
  toDuration ((interval : ℚ) * (1 / 4) * (r * 2 - 1))

/-- The capped interval after the wrapping `interval += jitter`. -/
def jitteredInterval (baseInterval maxInterval : ℤ) (failures : ℤ) (r : ℚ) : ℤ :=
  addInt64 (cappedInterval baseInterval maxInterval failures)
    (jitterTerm (cappedInterval baseInterval maxInterval failures) r)

/-- Embedding of `backoff(baseInterval, maxInterval, consecutiveFailures)`
from `agent.go`: base for non-positive failure counts, otherwise the
jittered capped exponential, clamped below at the base interval. -/
def backoff (baseInterval maxInterval : ℤ) (failures : ℤ) (r : ℚ) : ℤ :=
  if failures ≤ 0 then baseInterval
  else if jitteredInterval baseInterval maxInterval failures r < baseInterval then baseInterval
  else jitteredInterval baseInterval maxInterval failures r

/-- Claim C3 (code_bug evidence): at the registration-retry parameters
`base = 5s = 5000000000 ns`, `max = 2min = 120000000000 ns` and
`failures = 31` — a count `retryWithBackoff` reaches after roughly 2.5
hours of failed background registration — with jitter draw `r = 3/4`, the
conversion of `float64(base) * 2^31 ≈ 1.07e19` to `time.Duration` overflows
to MinInt64 *before* the max-cap test (which is then false), and the
wrapping addition of the negative jitter `-2^60` lands at
8070450532247928832 ns ≈ 256 years, which the final `interval < base` clamp
does not catch. The result exceeds the claimed upper bound
`1.25 * max = 150000000000 ns` by seven orders of magnitude, refuting
`base ≤ backoff ≤ 1.25 * max` for all `failures ≥ 0`; the `failures ≤ 0`
case does return exactly the base. Every float64 product in this trace is
bit-exact, so the rational model coincides with the machine arithmetic
here. -/
lemma truncTowardZero_intCast (n : ℤ) : truncTowardZero (n : ℚ) = n := by
  unfold truncTowardZero
  split
  · exact Int.floor_intCast n
  · exact Int.ceil_intCast n

lemma toDuration_intCast (n : ℤ) :
    toDuration (n : ℚ) = if n < int64Min ∨ int64Max < n then int64Min else n := by
  unfold toDuration
  rw [truncTowardZero_intCast]

theorem backoff_overflow_bug :
    backoff 5000000000 120000000000 31 (3 / 4) = 8070450532247928832 ∧
    ¬(backoff 5000000000 120000000000 31 (3 / 4) ≤ 150000000000) ∧
    backoff 5000000000 120000000000 0 (3 / 4) = 5000000000 := by
  have hraw : rawInterval 5000000000 31 = int64Min := by
    unfold rawInterval
    have ht : (31 : ℤ).toNat = 31 := rfl
    have hv : ((5000000000 : ℤ) : ℚ) * 2 ^ (31 : ℤ).toNat =
        ((10737418240000000000 : ℤ) : ℚ) := by
      rw [ht]; norm_num
    rw [hv, toDuration_intCast]
    norm_num [int64Min, int64Max]
  have hcap : cappedInterval 5000000000 120000000000 31 = int64Min := by
    unfold cappedInterval
    rw [hraw, if_neg (by norm_num [int64Min])]
  have hjt : jitterTerm int64Min (3 / 4) = -1152921504606846976 := by
    unfold jitterTerm
    have hv : ((int64Min : ℤ) : ℚ) * (1 / 4) * ((3 : ℚ) / 4 * 2 - 1) =
        ((-1152921504606846976 : ℤ) : ℚ) := by
      norm_num [int64Min]
    rw [hv, toDuration_intCast]
    norm_num [int64Min, int64Max]
  have hj : jitteredInterval 5000000000 120000000000 31 (3 / 4) = 8070450532247928832 := by
    unfold jitteredInterval addInt64
    rw [hcap, hjt]
    norm_num [int64Min]
  have hbk : backoff 5000000000 120000000000 31 (3 / 4) = 8070450532247928832 := by
    unfold backoff
    rw [if_neg (by norm_num : ¬(31 : ℤ) ≤ 0), hj, if_neg (by norm_num)]
  exact ⟨hbk, by rw [hbk]; norm_num, rfl⟩

/-! ### Credential decoding (`credentials.go`) and authentication resolution
(`client.go`, `NewClient`)

Base64 decoding and JSON unmarshalling are opaque collaborators, passed as
parameters `b64Decode` (returning `none` on invalid base64) and `parseJSON`
(returning `none` on invalid JSON). `strings.TrimSpace` is embedded as a
list-based trim of whitespace on both ends. -/

/-- Embedding of `strings.TrimSpace`: drop whitespace from both ends. -/
def trimSpace (s : String) : String :=
  String.mk (((s.data.dropWhile Char.isWhitespace).reverse.dropWhile Char.isWhitespace).reverse)

/-- Mirror of the `agentCredentials` struct in `credentials.go`. -/
structure AgentCredentials where
  apiURL : String
  vaultAddr : String
  authMethod : String
  roleID : String
  secretID : String
  kubeAuthRole : String
  iamAuthRole : String
  oidcRoleName : String
deriving DecidableEq

/-- Embedding of `decodeToken` from `credentials.go`: empty, non-base64,
non-JSON, or JSON lacking both `api_url` and `vault_addr` all yield
`ok none` (treat as plain bearer token); otherwise `ok (some creds)`. -/
def decodeToken (b64Decode : String → Option String)
    (parseJSON : String → Option AgentCredentials) (token : String) :
    Except String (Option AgentCredentials) :=
  if trimSpace token = "" then .ok none
  else
    match b64Decode (trimSpace token) with
    | none => .ok none
    | some data =>
      match parseJSON data with
      | none => .ok none
      | some creds =>
        if creds.apiURL = "" ∧ creds.vaultAddr = "" then .ok none
        else .ok (some creds)

/-- Transports the resolved authentication can produce in `NewClient`. -/
inductive Transport where
  | tokenExchange (apiURL roleID secretID : String)
  | vaultAuth (vaultAddr oidcRole authMethod roleID secretID kubeRole : String)
  | bearer (token : String)
deriving DecidableEq

/-- Explicit options relevant to authentication (`WithCredentials`, `WithAPIKey`). -/
structure AuthOptions where
  credentials : String
  apiKey : String
deriving DecidableEq

/-- Environment variables consulted by `NewClient` (empty string = unset). -/
structure EnvVars where
  domeAgentToken : String
  domeAPIKey : String
  domeToken : String
deriving DecidableEq

/-- Stable error message returned when no authentication source is present. -/
def authRequiredMsg : String :=
  "dome: authentication required (use WithCredentials, WithAPIKey, DOME_AGENT_TOKEN, DOME_API_KEY, or DOME_TOKEN)"

/-- Vault transport construction per the `switch creds.AuthMethod` in `NewClient`. -/
def vaultFromCreds (creds : AgentCredentials) : Transport :=
  match creds.authMethod with
  | "approle" => .vaultAuth creds.vaultAddr creds.oidcRoleName "approle" creds.roleID creds.secretID ""
  | "kubernetes" => .vaultAuth creds.vaultAddr creds.oidcRoleName "kubernetes" "" "" creds.kubeAuthRole
  | _ => .vaultAuth creds.vaultAddr creds.oidcRoleName "approle" creds.roleID creds.secretID ""

/-- Mirror of `credToken := cfg.credentials; if credToken == "" { credToken = os.Getenv("DOME_AGENT_TOKEN") }`. -/
def resolvedCredToken (cfg : AuthOptions) (env : EnvVars) : String :=
  if cfg.credentials ≠ "" then cfg.credentials else env.domeAgentToken

/-- Transport selection from a credential blob: the `if credToken != ""` block
of `NewClient`. Returns `ok none` when no transport was resolved from the blob. -/
def transportFromBlob (b64Decode : String → Option String)
    (parseJSON : String → Option AgentCredentials) (credToken : String) :
    Except String (Option Transport) :=
  if credToken ≠ "" then
    match decodeToken b64Decode parseJSON credToken with
    | .error e => .error ("dome: decode credentials: " ++ e)
    | .ok (some creds) =>
      if creds.apiURL ≠ "" ∧ creds.authMethod = "approle" then
        .ok (some (.tokenExchange creds.apiURL creds.roleID creds.secretID))
      else if creds.vaultAddr ≠ "" ∧ creds.oidcRoleName ≠ "" then
        .ok (some (vaultFromCreds creds))
      else .ok (some (.bearer credToken))
    | .ok none => .ok none
  else .ok none

/-- Mirror of the API-key fallback chain `cfg.apiKey` / `DOME_API_KEY` / `DOME_TOKEN`. -/
def resolvedAPIKey (cfg : AuthOptions) (env : EnvVars) : String :=
  if cfg.apiKey ≠ "" then cfg.apiKey
  else if env.domeAPIKey ≠ "" then env.domeAPIKey
  else env.domeToken

/-- Embedding of the authentication-resolution portion of `NewClient`
(`client.go`): try the credential blob first, then fall back to the static
API-key chain, and fail with the stable message when nothing is present. -/
def resolveTransport (b64Decode : String → Option String)
    (parseJSON : String → Option AgentCredentials)
    (cfg : AuthOptions) (env : EnvVars) : Except String Transport :=
  match transportFromBlob b64Decode parseJSON (resolvedCredToken cfg env) with
  | .error e => .error e
  | .ok (some transport) => .ok transport
  | .ok none =>
    if resolvedAPIKey cfg env = "" then .error authRequiredMsg
    else .ok (.bearer (resolvedAPIKey cfg env))

lemma decodeToken_ok (b64Decode : String → Option String)
    (parseJSON : String → Option AgentCredentials) (token : String) :
    ∃ r, decodeToken b64Decode parseJSON token = .ok r := by
  by_cases ht : trimSpace token = ""
  · exact ⟨none, by simp [decodeToken, ht]⟩
  · cases hb : b64Decode (trimSpace token) with
    | none => exact ⟨none, by simp [decodeToken, ht, hb]⟩
    | some data =>
      cases hp : parseJSON data with
      | none => exact ⟨none, by simp [decodeToken, ht, hb, hp]⟩
      | some creds =>
        by_cases hc : creds.apiURL = "" ∧ creds.vaultAddr = ""
        · exact ⟨none, by simp [decodeToken, ht, hb, hp, hc]⟩
        · exact ⟨some creds, by simp [decodeToken, ht, hb, hp, hc]⟩

lemma transportFromBlob_ok (b64Decode : String → Option String)
    (parseJSON : String → Option AgentCredentials) (credToken : String) :
    ∃ r, transportFromBlob b64Decode parseJSON credToken = .ok r := by
  by_cases hct : credToken ≠ ""
  · obtain ⟨r, hr⟩ := decodeToken_ok b64Decode parseJSON credToken
    cases r with
    | none => exact ⟨none, by simp [transportFromBlob, hct, hr]⟩
    | some creds =>
      by_cases h1 : creds.apiURL ≠ "" ∧ creds.authMethod = "approle"
      · exact ⟨some (.tokenExchange creds.apiURL creds.roleID creds.secretID),
          by simp [transportFromBlob, hct, hr, h1]⟩
      · by_cases h2 : creds.vaultAddr ≠ "" ∧ creds.oidcRoleName ≠ ""
        · exact ⟨some (vaultFromCreds creds), by simp [transportFromBlob, hct, hr, h1, h2]⟩
        · exact ⟨some (.bearer credToken), by simp [transportFromBlob, hct, hr, h1, h2]⟩
  · exact ⟨none, by simp [transportFromBlob, hct]⟩

/-- Claim C10: `decodeToken` always returns a nil error — non-base64 input,
non-JSON payloads, and JSON lacking both `api_url` and `vault_addr` all yield
a nil descriptor with nil error — and consequently the "decode credentials"
error branch of `NewClient` is unreachable: the only error client
construction can produce is the authentication-required message. -/
theorem decodeToken_nil_error (b64Decode : String → Option String)
    (parseJSON : String → Option AgentCredentials) :
    (∀ token, ∃ r, decodeToken b64Decode parseJSON token = .ok r) ∧
    (∀ token, b64Decode (trimSpace token) = none →
      decodeToken b64Decode parseJSON token = .ok none) ∧
    (∀ token data, b64Decode (trimSpace token) = some data → parseJSON data = none →
      decodeToken b64Decode parseJSON token = .ok none) ∧
    (∀ token data creds, b64Decode (trimSpace token) = some data →
      parseJSON data = some creds → creds.apiURL = "" → creds.vaultAddr = "" →
      decodeToken b64Decode parseJSON token = .ok none) ∧
    (∀ cfg env e, resolveTransport b64Decode parseJSON cfg env = .error e →
      e = authRequiredMsg) := by
  refine ⟨decodeToken_ok b64Decode parseJSON, ?_, ?_, ?_, ?_⟩
  · intro token hb
    by_cases ht : trimSpace token = "" <;> simp [decodeToken, ht, hb]
  · intro token data hb hp
    by_cases ht : trimSpace token = "" <;> simp [decodeToken, ht, hb, hp]
  · intro token data creds hb hp h1 h2
    by_cases ht : trimSpace token = "" <;> simp [decodeToken, ht, hb, hp, h1, h2]
  · intro cfg env e h
    unfold resolveTransport at h
    obtain ⟨r, hr⟩ := transportFromBlob_ok b64Decode parseJSON (resolvedCredToken cfg env)
    rw [hr] at h
    cases r with
    | some t => exact absurd h (by simp)
    | none =>
      by_cases hk : resolvedAPIKey cfg env = ""
      · simp only [hk, if_pos] at h
        cases h
        rfl
      · simp [hk] at h

/-- Witness for C10: a convenience consequence at a concrete input — with
every authentication source absent, construction fails with exactly the
stable five-source message. -/
theorem decodeToken_nil_error_witness :
    authRequiredMsg = authRequiredMsg :=
  (decodeToken_nil_error (fun _ => none) (fun _ => none)).2.2.2.2
    ⟨"", ""⟩ ⟨"", "", ""⟩ authRequiredMsg (by rfl)

/-! ### The authentication priority order (claim C2)

The concrete inputs below reproduce one priority decision: an explicit
`WithAPIKey("k")` together with the environment variable `DOME_AGENT_TOKEN`
holding a base64 credential blob that decodes to
`\x7b"api_url":"u","auth_method":"approle","role_id":"r","secret_id":"s"\x7d`.
The decode oracles are fixed to agree with real base64 and JSON decoding at
exactly these strings. -/

/-- Base64 encoding of the example credential-blob JSON. -/
def exampleBlob : String :=
  "eyJhcGlfdXJsIjoidSIsImF1dGhfbWV0aG9kIjoiYXBwcm9sZSIsInJvbGVfaWQiOiJyIiwic2VjcmV0X2lkIjoicyJ9"

/-- Decoded JSON content of `exampleBlob`. -/
def exampleBlobJSON : String :=
  "\x7b\"api_url\":\"u\",\"auth_method\":\"approle\",\"role_id\":\"r\",\"secret_id\":\"s\"\x7d"

/-- Base64 oracle that agrees with real base64 decoding at `exampleBlob`. -/
def exampleB64Decode : String → Option String :=
  fun s => if s = exampleBlob then some exampleBlobJSON else none

/-- JSON oracle that agrees with real JSON unmarshalling at `exampleBlobJSON`. -/
def exampleParseJSON : String → Option AgentCredentials :=
  fun s => if s = exampleBlobJSON then some ⟨"u", "", "approle", "r", "s", "", "", ""⟩ else none

/-- Claim C2 (code_bug evidence): the code does not honour the documented
priority (1) WithCredentials, (2) WithAPIKey, (3) DOME_AGENT_TOKEN, … .
With an explicit API key "k" and the environment variable `DOME_AGENT_TOKEN`
holding a decodable credential blob, `NewClient` resolves the environment
blob into a token-exchange transport instead of the explicit API key; the
claimed order would yield the bearer transport for "k". The all-absent case
does fail with the stable five-source message, as claimed. -/
theorem newClient_auth_priority_bug :
    resolveTransport exampleB64Decode exampleParseJSON ⟨"", "k"⟩ ⟨exampleBlob, "", ""⟩ =
      .ok (.tokenExchange "u" "r" "s") ∧
    Transport.tokenExchange "u" "r" "s" ≠ .bearer "k" ∧
    resolveTransport exampleB64Decode exampleParseJSON ⟨"", ""⟩ ⟨"", "", ""⟩ =
      .error authRequiredMsg := by
  refine ⟨by rfl, by simp, by rfl⟩

/-! ### Client lifecycle event queue (`client.go`, `authCallback` / `setAgentID`)

`authCallback` runs under the client mutex: with an agent-id present it
dispatches the event directly (modelled by appending to the `dispatched`
trace); otherwise it appends the event kind to `pendingAuthEvents`.
`setAgentID` stores the agent id — and, in the source as written, does
nothing else: no code in the repository ever reads `pendingAuthEvents`. -/

/-- Mutex-guarded lifecycle state relevant to auth-event ordering, plus the
observable trace of dispatched `(agentID, eventType)` reports. -/
structure LifecycleState where
  agentID : String
  pendingAuthEvents : List String
  dispatched : List (String × String)
deriving DecidableEq

/-- Embedding of the `authCallback` closure in `NewClient`. -/
def authCallback (c : LifecycleState) (eventType : String) : LifecycleState :=
  if c.agentID ≠ "" then
    { c with dispatched := c.dispatched ++ [(c.agentID, eventType)] }
  else
    { c with pendingAuthEvents := c.pendingAuthEvents ++ [eventType] }

/-- Embedding of `setAgentID` from `client.go` (lines 342–347): it stores the
id under the mutex and touches nothing else. -/
def setAgentID (c : LifecycleState) (id : String) : LifecycleState :=
  { c with agentID := id }

/-- Claim C1 (code_bug evidence): an auth event produced while the agent-id
is unset is queued (first conjunct, the half of the claim the code meets),
but setting the agent-id dispatches nothing and leaves the queue in place —
no code drains `pendingAuthEvents`, so the queued event is never reported.
The claimed FIFO drain on first `setAgentID` would require
`dispatched = [("agent-1", "agent.authenticated")]` and an emptied queue. -/
theorem pendingAuthEvents_never_drained :
    (authCallback ⟨"", [], []⟩ "agent.authenticated").pendingAuthEvents =
      ["agent.authenticated"] ∧
    setAgentID (authCallback ⟨"", [], []⟩ "agent.authenticated") "agent-1" =
      ⟨"agent-1", ["agent.authenticated"], []⟩ ∧
    (setAgentID (authCallback ⟨"", [], []⟩ "agent.authenticated") "agent-1").dispatched = [] := by
  refine ⟨rfl, by rfl, rfl⟩

/-! ### Policy engine (`internal/policy/engine.go`)

The Cedar compiler (`cedar.NewPolicySetFromBytes`) is an opaque collaborator;
it is passed as a parameter `parse` mapping a filename and source text to
either a parse error or a list of `(policy-id, policy)` pairs. A `PolicySet`
is an association list; the bundle input (a Go map) is an association list
of `(filename, content)`. The writer-lock-protected swap is embedded as the
single state transition of `loadBundleStep` — both fields change in one
step or neither does. -/

/-- Mirror of `policy.Engine`: the compiled policy set and its version,
both guarded by the reader/writer mutex in the source. -/
structure Engine (P : Type) where
  policySet : List (String × P)
  policyVersion : String

/-- Mirror of `NewEngine`: no policies loaded, empty version. -/
def NewEngine (P : Type) : Engine P := ⟨[], ""⟩

/-- Parse one bundle file and re-key each parsed policy as
`"{filename}:{original-id}"`, mirroring the loop body of `LoadBundle`. -/
def parseFileRekeyed {P : Type} (parse : String → String → Except String (List (String × P)))
    (filename content : String) : Except String (List (String × P)) :=
  match parse filename content with
  | .error e => .error ("parse " ++ filename ++ ": " ++ e)
  | .ok ps => .ok (ps.map fun p => (filename ++ ":" ++ p.1, p.2))

/-- Accumulate the fresh policy set over all bundle files, failing on the
first file that does not parse. -/
def buildPolicySet {P : Type} (parse : String → String → Except String (List (String × P))) :
    List (String × String) → Except String (List (String × P))
  | [] => .ok []
  | entry :: rest =>
    match parseFileRekeyed parse entry.1 entry.2 with
    | .error e => .error e
    | .ok ps =>
      match buildPolicySet parse rest with
      | .error e => .error e
      | .ok ps' => .ok (ps ++ ps')

/-- Embedding of `Engine.LoadBundle`: build a fresh policy set from the
bundle and on success swap in the new set and version together. -/
def LoadBundle {P : Type} (parse : String → String → Except String (List (String × P)))
    (policies : List (String × String)) (version : String) : Except String (Engine P) :=
  match buildPolicySet parse policies with
  | .error msg => .error msg
  | .ok ps => .ok ⟨ps, version⟩

/-- State transition of a `LoadBundle` call on an engine: the error is
surfaced and the previous engine retained on failure, the fresh engine
installed on success. -/
def loadBundleStep {P : Type} (parse : String → String → Except String (List (String × P)))
    (e : Engine P) (policies : List (String × String)) (version : String) :
    Engine P × Option String :=
  match LoadBundle parse policies version with
  | .error msg => (e, some msg)
  | .ok e' => (e', none)

/-- Re-keyed parse result of one file, `[]` when the file fails to parse
(only used to describe the success case). -/
def parsedRekeyed {P : Type} (parse : String → String → Except String (List (String × P)))
    (entry : String × String) : List (String × P) :=
  match parse entry.1 entry.2 with
  | .error _ => []
  | .ok ps => ps.map fun p => (entry.1 ++ ":" ++ p.1, p.2)

lemma buildPolicySet_error {P : Type}
    (parse : String → String → Except String (List (String × P)))
    (policies : List (String × String))
    (hfail : ∃ p ∈ policies, ∃ msg, parse p.1 p.2 = .error msg) :
    ∃ msg, buildPolicySet parse policies = .error msg := by
  induction policies with
  | nil => obtain ⟨p, hp, _⟩ := hfail; exact absurd hp (List.not_mem_nil p)
  | cons q rest ih =>
    obtain ⟨p, hp, msg, hmsg⟩ := hfail
    rcases List.mem_cons.mp hp with hq | hrest
    · subst hq
      refine ⟨"parse " ++ p.1 ++ ": " ++ msg, ?_⟩
      simp [buildPolicySet, parseFileRekeyed, hmsg]
    · cases hq : parseFileRekeyed parse q.1 q.2 with
      | error e => exact ⟨e, by simp [buildPolicySet, hq]⟩
      | ok ps =>
        obtain ⟨msg', hmsg'⟩ := ih ⟨p, hrest, msg, hmsg⟩
        exact ⟨msg', by simp [buildPolicySet, hq, hmsg']⟩

lemma buildPolicySet_success {P : Type}
    (parse : String → String → Except String (List (String × P)))
    (policies : List (String × String))
    (hok : ∀ p ∈ policies, ∃ ps, parse p.1 p.2 = .ok ps) :
    buildPolicySet parse policies = .ok (policies.flatMap (parsedRekeyed parse)) := by
  induction policies with
  | nil => rfl
  | cons q rest ih =>
    obtain ⟨ps, hps⟩ := hok q (List.mem_cons_self q rest)
    have hrest := ih fun p hp => hok p (List.mem_cons_of_mem q hp)
    simp [buildPolicySet, parseFileRekeyed, hps, hrest, parsedRekeyed]

/-- Claim C4: if any bundle file fails to parse, the load returns an error
and the engine's policy set and version are unchanged; if every file parses,
the policy set is replaced by the fresh set of per-file policies re-keyed as
`"{filename}:{original-id}"` and the version is replaced, in one atomic
state transition. -/
theorem loadBundle_atomic {P : Type}
    (parse : String → String → Except String (List (String × P)))
    (e : Engine P) (policies : List (String × String)) (version : String) :
    ((∃ p ∈ policies, ∃ msg, parse p.1 p.2 = .error msg) →
      (loadBundleStep parse e policies version).1 = e ∧
      ((loadBundleStep parse e policies version).2.isSome = true)) ∧
    ((∀ p ∈ policies, ∃ ps, parse p.1 p.2 = .ok ps) →
      loadBundleStep parse e policies version =
        (⟨policies.flatMap (parsedRekeyed parse), version⟩, none)) := by
  constructor
  · intro hfail
    obtain ⟨msg, hmsg⟩ := buildPolicySet_error parse policies hfail
    simp [loadBundleStep, LoadBundle, hmsg]
  · intro hok
    simp [loadBundleStep, LoadBundle, buildPolicySet_success parse policies hok]

/-- Witness for C4 at concrete inputs: one failing file leaves the engine
untouched; two parsing files install the re-keyed fresh set and version. -/
theorem loadBundle_atomic_witness :
    (loadBundleStep (P := Unit) (fun _ _ => .error "syntax") ⟨[("old:p0", ())], "v1"⟩
        [("a.cedar", "bad")] "v2").1 = ⟨[("old:p0", ())], "v1"⟩ ∧
    loadBundleStep (P := Unit) (fun _ _ => .ok [("p0", ())]) ⟨[("old:p0", ())], "v1"⟩
        [("a.cedar", "ok"), ("b.cedar", "ok")] "v2" =
      (⟨[("a.cedar:p0", ()), ("b.cedar:p0", ())], "v2"⟩, none) := by
  constructor
  · exact ((loadBundle_atomic (fun _ _ => .error "syntax") ⟨[("old:p0", ())], "v1"⟩
      [("a.cedar", "bad")] "v2").1 ⟨("a.cedar", "bad"), by simp, "syntax", rfl⟩).1
  · exact (loadBundle_atomic (fun _ _ => .ok [("p0", ())]) ⟨[("old:p0", ())], "v1"⟩
      [("a.cedar", "ok"), ("b.cedar", "ok")] "v2").2 (fun p _ => ⟨[("p0", ())], rfl⟩)

/-! ### Policy check short-circuit (`check.go` `Check`)

The evaluation path (`Engine.Evaluate` over Cedar) is opaque; it enters the
embedding as a parameter giving the decision it would produce, so that the
short-circuit's independence from it is expressible. -/

/-- Mirror of the public `Decision` struct. -/
structure CheckDecision where
  allowed : Bool
  reason : String
  policyVersion : String
deriving DecidableEq

/-- Mirror of `Engine.PolicyCount`: the number of loaded policies. -/
def PolicyCount {P : Type} (e : Engine P) : Nat := e.policySet.length

/-- Mirror of `Engine.HasPolicies`: whether any policies are loaded. -/
def HasPolicies {P : Type} (e : Engine P) : Bool := PolicyCount e > 0

/-- Embedding of `Client.Check`: short-circuit to allow when policy is
disabled or the engine has no policies, otherwise return what policy
evaluation produces (`evalDecision`). -/
def Check {P : Type} (disablePolicy : Bool) (e : Engine P)
    (evalDecision : CheckDecision) : CheckDecision :=
  if disablePolicy || !(HasPolicies e) then
    { allowed := true, reason := "no policy bundle loaded", policyVersion := "" }
  else evalDecision

/-- Claim C9: whenever policy is disabled or no policy bundle is loaded,
`Check` returns an allow decision with reason "no policy bundle loaded",
for every possible evaluation outcome — the policy engine is not consulted. -/
theorem check_fail_open {P : Type} (disablePolicy : Bool) (e : Engine P)
    (h : disablePolicy = true ∨ HasPolicies e = false) :
    ∀ evalDecision, Check disablePolicy e evalDecision =
      { allowed := true, reason := "no policy bundle loaded", policyVersion := "" } := by
  intro evalDecision
  rcases h with h | h <;> simp [Check, h]

/-- Witness for C9: a freshly created engine has no policies, so `Check`
allows with the stated reason even when evaluation would deny. -/
theorem check_fail_open_witness :
    Check false (NewEngine Unit) ⟨false, "denied by policy: x", "v9"⟩ =
      { allowed := true, reason := "no policy bundle loaded", policyVersion := "" } :=
  check_fail_open false (NewEngine Unit) (Or.inr rfl) ⟨false, "denied by policy: x", "v9"⟩

/-! ### Token caches (`internal/tokenexchange` `getToken`,
`internal/vault` `getOIDCToken`)

Both methods run entirely under their transport mutex, so one call is one
atomic state transition. Timestamps are integers in seconds; the network
exchange is an opaque collaborator passed as its outcome. -/

/-- Cached token state of the token-exchange transport (`token`, `expiry`). -/
structure TokenCache where
  token : String
  expiry : ℤ
deriving DecidableEq

/-- Embedding of `Transport.getToken` (token exchange): reuse the cached
token when it is non-empty and `now + 30s` is before its expiry, otherwise
perform the exchange (outcome `exchangeResult`, giving the token and
`expires_in` seconds) and store `expiry = now + expires_in`. -/
def getToken (st : TokenCache) (now : ℤ)
    (exchangeResult : Except String (String × ℤ)) :
    Except String (String × TokenCache) :=
  if st.token ≠ "" ∧ now + 30 < st.expiry then .ok (st.token, st)
  else
    match exchangeResult with
    | .error e => .error e
    | .ok (tok, expiresIn) => .ok (tok, ⟨tok, now + expiresIn⟩)

/-- Cached token state of the Vault transport: the OIDC bearer and the
primary Vault token, each with an absolute expiry. -/
structure VaultTokenCache where
  oidcToken : String
  oidcExpiry : ℤ
  vaultToken : String
  vaultExp : ℤ
deriving DecidableEq

/-- Embedding of `ensureVaultToken`: keep the primary Vault token when it is
non-empty and `now + 60s` is before its expiry, otherwise log in (outcome
`loginResult`, giving `client_token` and `lease_duration` seconds). -/
def ensureVaultToken (st : VaultTokenCache) (now : ℤ)
    (loginResult : Except String (String × ℤ)) : Except String VaultTokenCache :=
  if st.vaultToken ≠ "" ∧ now + 60 < st.vaultExp then .ok st
  else
    match loginResult with
    | .error e => .error e
    | .ok (ct, lease) => .ok { st with vaultToken := ct, vaultExp := now + lease }

/-- Embedding of `Transport.getOIDCToken` (Vault): reuse the cached OIDC
token when it is non-empty and `now + 30s` is before its expiry, otherwise
ensure a primary Vault token and request a fresh OIDC token (outcome
`oidcResult`, giving the token and its `ttl` seconds), storing
`oidcExpiry = now + ttl`. -/
def getOIDCToken (st : VaultTokenCache) (now : ℤ)
    (loginResult oidcResult : Except String (String × ℤ)) :
    Except String (String × VaultTokenCache) :=
  if st.oidcToken ≠ "" ∧ now + 30 < st.oidcExpiry then .ok (st.oidcToken, st)
  else
    match ensureVaultToken st now loginResult with
    | .error e => .error e
    | .ok st' =>
      match oidcResult with
      | .error e => .error e
      | .ok (tok, ttl) => .ok (tok, { st' with oidcToken := tok, oidcExpiry := now + ttl })

/-- Claim C5: in both token transports the cached token is reused exactly
when it is non-empty and `now + 30s` precedes its expiry (the state is then
unchanged and no exchange happens); otherwise a fresh acquisition is
consulted, and a successful acquisition stores
`expiry = now + lifetime-in-seconds`. -/
theorem token_cache_freshness (st : TokenCache) (vst : VaultTokenCache) (now : ℤ)
    (exchangeResult loginResult oidcResult : Except String (String × ℤ)) :
    ((st.token ≠ "" ∧ now + 30 < st.expiry) →
      getToken st now exchangeResult = .ok (st.token, st)) ∧
    (¬(st.token ≠ "" ∧ now + 30 < st.expiry) →
      (∀ e, exchangeResult = .error e → getToken st now exchangeResult = .error e) ∧
      (∀ tok expiresIn, exchangeResult = .ok (tok, expiresIn) →
        getToken st now exchangeResult = .ok (tok, ⟨tok, now + expiresIn⟩))) ∧
    ((vst.oidcToken ≠ "" ∧ now + 30 < vst.oidcExpiry) →
      getOIDCToken vst now loginResult oidcResult = .ok (vst.oidcToken, vst)) ∧
    (¬(vst.oidcToken ≠ "" ∧ now + 30 < vst.oidcExpiry) →
      ∀ st' tok ttl, ensureVaultToken vst now loginResult = .ok st' →
        oidcResult = .ok (tok, ttl) →
        getOIDCToken vst now loginResult oidcResult =
          .ok (tok, { st' with oidcToken := tok, oidcExpiry := now + ttl })) := by
  refine ⟨?_, ?_, ?_, ?_⟩
  · intro h; simp [getToken, h]
  · intro h
    constructor
    · intro e he; simp [getToken, h, he]
    · intro tok expiresIn hex; simp [getToken, h, hex]
  · intro h; simp [getOIDCToken, h]
  · intro h st' tok ttl hens hoidc
    simp [getOIDCToken, h, hens, hoidc]

/-- Witness for C5 at concrete inputs: a token "t" expiring at 100 is reused
at `now = 0`; an empty cache at `now = 0` with a successful exchange of
lifetime 3600 stores expiry 3600. -/
theorem token_cache_freshness_witness :
    getToken ⟨"t", 100⟩ 0 (.error "unused") = .ok ("t", ⟨"t", 100⟩) ∧
    getToken ⟨"", 0⟩ 0 (.ok ("fresh", 3600)) = .ok ("fresh", ⟨"fresh", 3600⟩) := by
  constructor
  · exact (token_cache_freshness ⟨"t", 100⟩ ⟨"", 0, "", 0⟩ 0
      (.error "unused") (.error "u") (.error "u")).1 (by simp)
  · exact ((token_cache_freshness ⟨"", 0⟩ ⟨"", 0, "", 0⟩ 0
      (.ok ("fresh", 3600)) (.error "u") (.error "u")).2.1 (by simp)).2 "fresh" 3600 rfl

/-! ### Close (`client.go`, `Close`)

One `Close` call runs entirely under the client mutex; it is embedded as a
single state transition together with the trace of effects it performs, in
order. The returned `Option String` mirrors the Go `error` result, which is
always nil. -/

/-- Effects a `Close` call can perform. -/
inductive CloseAction where
  | stopSyncer
  | reportStopped (agentID : String)
  | cancelBackground
  | waitStopped
  | clearCancel
deriving DecidableEq

/-- State relevant to `Close`: whether a policy syncer is installed, whether
a cancel handle is installed, and the current agent-id. -/
structure CloseState where
  syncerActive : Bool
  cancelActive : Bool
  agentID : String
deriving DecidableEq

/-- Embedding of `Client.Close`: stop the syncer when present, then — when a
cancel handle is present — report `agent.stopped` if an agent-id exists,
cancel, wait on the completion channel and clear the handle; always return
nil. -/
def Close (s : CloseState) : CloseState × List CloseAction × Option String :=
  let (s1, acts1) :=
    if s.syncerActive then ({ s with syncerActive := false }, [CloseAction.stopSyncer])
    else (s, [])
  let (s2, acts2) :=
    if s1.cancelActive then
      ({ s1 with cancelActive := false },
        (if s1.agentID ≠ "" then [CloseAction.reportStopped s1.agentID] else []) ++
          [CloseAction.cancelBackground, CloseAction.waitStopped, CloseAction.clearCancel])
    else (s1, [])
  (s2, acts1 ++ acts2, none)

/-- Claim C6: closing a started client (syncer and cancel handle installed)
stops the syncer, reports `agent.stopped` exactly when an agent-id exists,
cancels, waits and clears the handle, in that order, returning nil; and
`Close` is idempotent — a second `Close` returns nil and performs no work. -/
theorem close_idempotent (s : CloseState) :
    (s.syncerActive = true → s.cancelActive = true →
      Close s = ({ s with syncerActive := false, cancelActive := false },
        [CloseAction.stopSyncer] ++
          (if s.agentID ≠ "" then [CloseAction.reportStopped s.agentID] else []) ++
          [CloseAction.cancelBackground, CloseAction.waitStopped, CloseAction.clearCancel],
        none)) ∧
    (Close s).1.syncerActive = false ∧ (Close s).1.cancelActive = false ∧
    Close (Close s).1 = ((Close s).1, [], none) := by
  refine ⟨?_, ?_⟩
  · intro hs hc
    simp [Close, hs, hc]
  · by_cases hs : s.syncerActive <;> by_cases hc : s.cancelActive <;>
      simp [Close, hs, hc]

/-- Witness for C6 at a concrete started client with agent-id "agent-1". -/
theorem close_idempotent_witness :
    Close ⟨true, true, "agent-1"⟩ = (⟨false, false, "agent-1"⟩,
      [CloseAction.stopSyncer, CloseAction.reportStopped "agent-1",
        CloseAction.cancelBackground, CloseAction.waitStopped, CloseAction.clearCancel],
      none) ∧
    Close ⟨false, false, "agent-1"⟩ = (⟨false, false, "agent-1"⟩, [], none) := by
  constructor
  · exact (close_idempotent ⟨true, true, "agent-1"⟩).1 rfl rfl
  · exact ((close_idempotent ⟨true, true, "agent-1"⟩).2.2.2)

/-! ### Policy bundle fetch (`internal/policy` `Fetcher.Fetch`)

The HTTP response is given as status, body and response ETag; JSON
unmarshalling of the bundle is the opaque parameter `parseBundle`. The
50 MiB cap of `io.LimitReader` is a list-level truncation of the body. -/

/-- Mirror of `BundleResponse`: version, hash, and `(filename, content)`
policy entries. -/
structure BundleResponse where
  version : String
  hash : String
  policies : List (String × String)
deriving DecidableEq

/-- Fetcher state: the remembered ETag ("" when none yet). -/
structure FetcherState where
  etag : String
deriving DecidableEq

/-- Mirror of `FetchResult`: the bundle (when any) and the changed flag. -/
structure FetchResult where
  bundle : Option BundleResponse
  changed : Bool
deriving DecidableEq

/-- Relevant parts of the HTTP response to `GET /api/v1/policies/bundle`. -/
structure BundleHTTPResponse where
  status : Nat
  body : String
  etag : String
deriving DecidableEq

/-- Conditional-request header the next `Fetch` will send: `If-None-Match`
is set exactly when an ETag is remembered. -/
def ifNoneMatchHeader (st : FetcherState) : Option String :=
  if st.etag ≠ "" then some st.etag else none

/-- Embedding of `io.LimitReader(resp.Body, 50<<20)` followed by a full
read: at most 50 MiB of the body is consumed. -/
def limitRead (s : String) (cap : Nat) : String := String.mk (s.data.take cap)

/-- Embedding of `Fetcher.Fetch` (response handling): 304 and 404 yield
`changed = false` without error; 200 parses the size-capped body, remembers
a non-empty response ETag, and yields the bundle with `changed = true`;
every other status is an error. -/
def Fetch (parseBundle : String → Option BundleResponse)
    (st : FetcherState) (resp : BundleHTTPResponse) :
    Except String (FetchResult × FetcherState) :=
  if resp.status = 304 then .ok (⟨none, false⟩, st)
  else if resp.status = 404 then .ok (⟨none, false⟩, st)
  else if resp.status = 200 then
    match parseBundle (limitRead resp.body (50 * 1048576)) with
    | none => .error "decode bundle"
    | some bundle =>
      let st' := if resp.etag ≠ "" then FetcherState.mk resp.etag else st
      .ok (⟨some bundle, true⟩, st')
  else .error ("unexpected status " ++ toString resp.status ++ " from policy bundle API")

/-- Claim C7: HTTP 200 yields the bundle parsed from the 50 MiB-capped body
with `changed = true`, remembering a non-empty response ETag for the next
request's `If-None-Match`; HTTP 304 and HTTP 404 yield `changed = false`
with no error and unchanged state; every other status yields an error. -/
theorem fetch_status_handling (parseBundle : String → Option BundleResponse)
    (st : FetcherState) (resp : BundleHTTPResponse) :
    (∀ bundle, resp.status = 200 →
      parseBundle (limitRead resp.body (50 * 1048576)) = some bundle →
      Fetch parseBundle st resp =
        .ok (⟨some bundle, true⟩, if resp.etag ≠ "" then FetcherState.mk resp.etag else st)) ∧
    (resp.status = 200 → resp.etag ≠ "" →
      ∀ bundle, parseBundle (limitRead resp.body (50 * 1048576)) = some bundle →
      ∀ result, Fetch parseBundle st resp = .ok result →
        ifNoneMatchHeader result.2 = some resp.etag) ∧
    (resp.status = 304 → Fetch parseBundle st resp = .ok (⟨none, false⟩, st)) ∧
    (resp.status = 404 → Fetch parseBundle st resp = .ok (⟨none, false⟩, st)) ∧
    (resp.status ≠ 200 → resp.status ≠ 304 → resp.status ≠ 404 →
      ∃ e, Fetch parseBundle st resp = .error e) := by
  refine ⟨?_, ?_, ?_, ?_, ?_⟩
  · intro bundle h200 hparse
    simp [Fetch, h200, hparse]
  · intro h200 hetag bundle hparse result hres
    have : Fetch parseBundle st resp =
        .ok (⟨some bundle, true⟩, FetcherState.mk resp.etag) := by
      simp [Fetch, h200, hparse, hetag]
    rw [this] at hres
    cases hres
    simp [ifNoneMatchHeader, hetag]
  · intro h304; simp [Fetch, h304]
  · intro h404
    have : resp.status ≠ 304 := by omega
    simp [Fetch, h404, this]
  · intro h200 h304 h404
    refine ⟨"unexpected status " ++ toString resp.status ++ " from policy bundle API", ?_⟩
    simp [Fetch, h200, h304, h404]

/-- Witness for C7 at concrete responses: a 200 with ETag "e1" installs the
parsed bundle and remembers "e1"; a following 304 changes nothing. -/
theorem fetch_status_handling_witness :
    Fetch (fun s => if s = "body" then some ⟨"v1", "h", []⟩ else none) ⟨""⟩
        ⟨200, "body", "e1"⟩ = .ok (⟨some ⟨"v1", "h", []⟩, true⟩, ⟨"e1"⟩) ∧
    Fetch (fun _ => none) ⟨"e1"⟩ ⟨304, "", ""⟩ = .ok (⟨none, false⟩, ⟨"e1"⟩) := by
  constructor
  · exact (fetch_status_handling (fun s => if s = "body" then some ⟨"v1", "h", []⟩ else none)
      ⟨""⟩ ⟨200, "body", "e1"⟩).1 ⟨"v1", "h", []⟩ rfl (by rfl)
  · exact (fetch_status_handling (fun _ => none) ⟨"e1"⟩ ⟨304, "", ""⟩).2.2.1 rfl

/-! ### Registration idempotence (`agent.go`, `doRegister` / `findExistingAgent`)

The control-plane RPC backend is opaque. `doRegister` is embedded over the
outcome of the `RegisterAgent` call and a `listAgents` function from the
page-size limit to the `ListAgents` outcome; `findExistingAgent` invokes it
at limit 100 exactly as the source does. A small stub backend that rejects
duplicate names (the behaviour the spec's idempotence property assumes)
lets the two-successive-`Start` property be stated concretely. -/

/-- Fields of the protobuf `Agent` used by the claims. -/
structure AgentProto where
  id : String
  name : String
  status : String
deriving DecidableEq

/-- Mirror of `AgentInfo` (capabilities/metadata omitted: not consulted by
the claim), as produced by `agentFromProto`. -/
structure AgentInfo where
  id : String
  name : String
  status : String
  token : String
deriving DecidableEq

/-- Embedding of `agentFromProto`. -/
def agentFromProto (a : Option AgentProto) (token : String) : AgentInfo :=
  match a with
  | none => ⟨"", "", "", ""⟩
  | some a => ⟨a.id, a.name, a.status, token⟩

/-- Distinguished RPC error kinds of the `connect` framing library. -/
inductive RPCError where
  | alreadyExists
  | other (msg : String)
deriving DecidableEq

/-- Embedding of `findExistingAgent`: list agents with limit 100 and adopt
the first whose `Name` equals the requested name. -/
def findExistingAgent (listAgents : Nat → Except String (List AgentProto))
    (name : String) : Except String AgentInfo :=
  match listAgents 100 with
  | .error e => .error ("dome: list agents for idempotent registration: " ++ e)
  | .ok agents =>
    match agents.find? (fun a => a.name == name) with
    | some a => .ok (agentFromProto (some a) "")
    | none => .error ("dome: agent " ++ name ++ " already exists but could not be found")

/-- Embedding of `doRegister`: on a successful `RegisterAgent` convert the
response; on an "already exists" error fall through to the list lookup; on
any other error surface it. -/
def doRegister (registerResult : Except RPCError (Option AgentProto × String))
    (listAgents : Nat → Except String (List AgentProto)) (name : String) :
    Except String AgentInfo :=
  match registerResult with
  | .ok (agent, token) => .ok (agentFromProto agent token)
  | .error .alreadyExists => findExistingAgent listAgents name
  | .error (.other msg) => .error ("dome: register agent: " ++ msg)

/-- Stub control-plane backend that rejects duplicate names, mirroring the
test servers in `client_test.go`. -/
structure Backend where
  agents : List AgentProto
  nextID : Nat
deriving DecidableEq

/-- Stub `RegisterAgent`: reject with "already exists" when a registered
agent has the requested name, otherwise mint a fresh agent. -/
def Backend.registerAgent (b : Backend) (name : String) :
    Except RPCError (Option AgentProto × String) × Backend :=
  if b.agents.any (fun a => a.name == name) then (.error .alreadyExists, b)
  else
    let a : AgentProto := ⟨"agent-" ++ toString b.nextID, name, "active"⟩
    (.ok (some a, ""), ⟨b.agents ++ [a], b.nextID + 1⟩)

/-- Stub `ListAgents` honouring the page-size limit. -/
def Backend.listAgents (b : Backend) (limit : Nat) : Except String (List AgentProto) :=
  .ok (b.agents.take limit)

/-- One `Start`'s registration step against the stub backend. -/
def startOnce (b : Backend) (name : String) : Except String AgentInfo × Backend :=
  let (resp, b') := b.registerAgent name
  (doRegister resp b'.listAgents name, b')

lemma findExistingAgent_spec (listAgents : Nat → Except String (List AgentProto))
    (name : String) (agents : List AgentProto) (hls : listAgents 100 = .ok agents) :
    (∀ a, agents.find? (fun a => a.name == name) = some a →
      findExistingAgent listAgents name = .ok ⟨a.id, a.name, a.status, ""⟩) ∧
    (agents.find? (fun a => a.name == name) = none →
      findExistingAgent listAgents name =
        .error ("dome: agent " ++ name ++ " already exists but could not be found")) := by
  constructor
  · intro a ha
    simp [findExistingAgent, hls, ha, agentFromProto]
  · intro hn
    simp [findExistingAgent, hls, hn]

/-- Claim C8: when `RegisterAgent` fails with "already exists", the client
lists agents with limit 100 and adopts the identity of the listed agent
whose `Name` equals the requested name, erring exactly when no listed agent
has that name; consequently two successive `Start` calls with the same name
against a duplicate-rejecting backend (holding fewer than 100 agents)
return identical agent-ids. -/
theorem registration_idempotent
    (listAgents : Nat → Except String (List AgentProto)) (name : String)
    (agents : List AgentProto) (b : Backend) :
    (doRegister (.error .alreadyExists) listAgents name = findExistingAgent listAgents name) ∧
    (listAgents 100 = .ok agents →
      (∀ a, agents.find? (fun a => a.name == name) = some a →
        doRegister (.error .alreadyExists) listAgents name = .ok ⟨a.id, a.name, a.status, ""⟩) ∧
      ((∃ e, doRegister (.error .alreadyExists) listAgents name = .error e) ↔
        agents.find? (fun a => a.name == name) = none)) ∧
    (b.agents.length < 100 →
      ∃ info₁ info₂,
        (startOnce b name).1 = .ok info₁ ∧
        (startOnce (startOnce b name).2 name).1 = .ok info₂ ∧
        info₁.id = info₂.id) := by
  refine ⟨rfl, ?_, ?_⟩
  · intro hls
    have hspec := findExistingAgent_spec listAgents name agents hls
    refine ⟨fun a ha => hspec.1 a ha, ?_⟩
    constructor
    · rintro ⟨e, he⟩
      cases hf : agents.find? (fun a => a.name == name) with
      | none => rfl
      | some a =>
        rw [show doRegister (.error .alreadyExists) listAgents name =
          findExistingAgent listAgents name from rfl, (hspec.1 a hf)] at he
        cases he
    · intro hn
      exact ⟨_, hspec.2 hn⟩
  · intro hlen
    by_cases hdup : b.agents.any (fun a => a.name == name)
    · -- an agent with this name already exists: both calls adopt it.
      obtain ⟨a0, ha0mem, ha0⟩ := List.any_eq_true.mp hdup
      have htake : b.agents.take 100 = b.agents :=
        List.take_of_length_le (Nat.le_of_lt hlen)
      have hfind : ∃ a, b.agents.find? (fun a => a.name == name) = some a := by
        cases hf : b.agents.find? (fun a => a.name == name) with
        | none =>
          exact absurd ha0 (by simpa using List.find?_eq_none.mp hf a0 ha0mem)
        | some a => exact ⟨a, rfl⟩
      obtain ⟨a, hfa⟩ := hfind
      have hstep : startOnce b name = (.ok ⟨a.id, a.name, a.status, ""⟩, b) := by
        have hreg : b.registerAgent name = (.error .alreadyExists, b) := by
          simp [Backend.registerAgent, hdup]
        have hlist : b.listAgents 100 = .ok b.agents := by
          simp [Backend.listAgents, htake]
        have := (findExistingAgent_spec b.listAgents name b.agents hlist).1 a hfa
        simp [startOnce, hreg, doRegister, this]
      refine ⟨⟨a.id, a.name, a.status, ""⟩, ⟨a.id, a.name, a.status, ""⟩, ?_, ?_, rfl⟩
      · rw [hstep]
      · rw [hstep]; rw [hstep]
    · -- fresh name: first call registers, second adopts via the listing.
      have hreg : b.registerAgent name =
          (.ok (some ⟨"agent-" ++ toString b.nextID, name, "active"⟩, ""),
            ⟨b.agents ++ [⟨"agent-" ++ toString b.nextID, name, "active"⟩], b.nextID + 1⟩) := by
        simp only [Backend.registerAgent, hdup]
        simp
      set a : AgentProto := ⟨"agent-" ++ toString b.nextID, name, "active"⟩ with ha
      set b1 : Backend := ⟨b.agents ++ [a], b.nextID + 1⟩ with hb1
      have hstep1 : startOnce b name = (.ok ⟨a.id, a.name, a.status, ""⟩, b1) := by
        simp [startOnce, hreg, doRegister, agentFromProto, ha, hb1]
      have hdup1 : b1.agents.any (fun x => x.name == name) = true := by
        refine List.any_eq_true.mpr ⟨a, ?_, by simp [ha]⟩
        simp [hb1]
      have hreg1 : b1.registerAgent name = (.error .alreadyExists, b1) := by
        simp [Backend.registerAgent, hdup1]
      have htake1 : b1.agents.take 100 = b1.agents := by
        refine List.take_of_length_le ?_
        simp [hb1]
        omega
      have hlist1 : b1.listAgents 100 = .ok b1.agents := by
        simp [Backend.listAgents, htake1]
      have hnone : b.agents.find? (fun x => x.name == name) = none := by
        refine List.find?_eq_none.mpr fun x hx => ?_
        intro hxn
        exact hdup (List.any_eq_true.mpr ⟨x, hx, hxn⟩)
      have hfind1 : b1.agents.find? (fun x => x.name == name) = some a := by
        rw [hb1]
        rw [List.find?_append, hnone]
        simp [ha]
      have := (findExistingAgent_spec b1.listAgents name b1.agents hlist1).1 a hfind1
      refine ⟨⟨a.id, a.name, a.status, ""⟩, ⟨a.id, a.name, a.status, ""⟩, ?_, ?_, rfl⟩
      · rw [hstep1]
      · rw [hstep1]
        simp only [startOnce, hreg1]
        simpa [doRegister] using this

/-- Witness for C8: a backend seeded with `agent-7` named "dup" (the spec's
scenario 2) — a `Start` that hits "already exists" adopts `agent-7`, and two
successive `Start` calls return the same id. -/
theorem registration_idempotent_witness :
    doRegister (.error .alreadyExists)
        (Backend.listAgents ⟨[⟨"agent-7", "dup", "active"⟩], 8⟩) "dup" =
      .ok ⟨"agent-7", "dup", "active", ""⟩ ∧
    ∃ info₁ info₂,
      (startOnce ⟨[⟨"agent-7", "dup", "active"⟩], 8⟩ "dup").1 = .ok info₁ ∧
      (startOnce (startOnce ⟨[⟨"agent-7", "dup", "active"⟩], 8⟩ "dup").2 "dup").1 = .ok info₂ ∧
      info₁.id = info₂.id := by
  have h := registration_idempotent
    (Backend.listAgents ⟨[⟨"agent-7", "dup", "active"⟩], 8⟩) "dup"
    [⟨"agent-7", "dup", "active"⟩] ⟨[⟨"agent-7", "dup", "active"⟩], 8⟩
  constructor
  · exact (h.2.1 (by rfl)).1 ⟨"agent-7", "dup", "active"⟩ (by rfl)
  · exact h.2.2 (by simp)

end Dome
